import Mathlib

/-!
Verification development for the obsidian-copy-image plugin (`src/main.ts`).

The plugin's pipeline is embedded shallowly:
* the command-path line parsing (`handleCommand`, lines 73-111 of `main.ts`)
  is modelled on `List Char`, with the regex `.*!\[\[(.*?)\]\].*` replaced
  by `$1` modelled by `extractName` (greedy leading `.*` = last matching
  position, lazy group = text up to the first `]]`, identity when no match);
* the effectful parts (fetch, Jimp decode, SVG rasterization, canvas,
  clipboard, notices, object URLs) are modelled as an event trace
  `List Ev` plus a list of errors that escape the invocation uncaught
  (`List Err`); the environment `Env` supplies the outcome of each
  external operation.
-/

namespace CopyImage

/-- The character sequence of the embed opener. -/
def bangSeq : List Char := ['!', '[', '[']

/-- Does the list start with the three characters of the embed opener. -/
def startsBang : List Char → Bool
  | '!' :: '[' :: '[' :: _ => true
  | _ => false

/-- Does the list contain the embed opener anywhere (models
`line.includes('![[')` of `main.ts` line 75). -/
def hasBang : List Char → Bool
  | [] => false
  | c :: rest => startsBang (c :: rest) || hasBang rest

/-- Does the list contain two adjacent closing brackets. -/
def hasClose : List Char → Bool
  | c :: d :: rest => (c == ']' && d == ']') || hasClose (d :: rest)
  | _ => false

/-- Split at the first occurrence of the two-character closer. Returns the
text before it and the text after it; the lazy group `(.*?)` followed by
`\]\]` of the regex on `main.ts` line 79. -/
def splitFirstClose : List Char → Option (List Char × List Char)
  | [] => none
  | [_] => none
  | c :: d :: rest =>
    if c == ']' && d == ']' then some ([], rest)
    else
      match splitFirstClose (d :: rest) with
      | some (g, r) => some (c :: g, r)
      | none => none

/-- The regex match attempted at this position: the opener followed by the
lazy group up to the first closer. -/
def embedAt (l : List Char) : Option (List Char) :=
  if startsBang l then
    match splitFirstClose (l.drop 3) with
    | some (g, _) => some g
    | none => none
  else none

/-- The group of the regex match, with the greedy leading `.*` choosing the
last position at which the rest of the pattern matches. -/
def lastGroup : List Char → Option (List Char)
  | [] => none
  | c :: rest =>
    match lastGroup rest with
    | some g => some g
    | none => embedAt (c :: rest)

/-- `line.replace(/.*!\[\[(.*?)\]\].*\/, '$1')` (`main.ts` line 79): the
matched group when the regex matches, the line unchanged otherwise. -/
def extractName (line : List Char) : List Char :=
  match lastGroup line with
  | some g => g
  | none => line

/-- `if (fileNane.includes('|')) fileNane = fileNane.split('|')[0]`
(`main.ts` lines 84-86). -/
def stripAlias (s : List Char) : List Char :=
  if s.contains '|' then s.takeWhile (fun c => c != '|') else s

/-- `fileNane.split('.').pop()` (`main.ts` line 87): the substring after
the last dot, the whole string when there is no dot. -/
def lastExt (s : List Char) : List Char :=
  (s.reverse.takeWhile (fun c => c != '.')).reverse

/-- The extension allowlist of `main.ts` line 92. -/
def allowedExts : List (List Char) :=
  ["bmp".toList, "gif".toList, "jpeg".toList, "jpg".toList, "png".toList, "tiff".toList]

/-- A fetched blob: its declared MIME type and its byte buffer. -/
structure Blob where
  type : String
  bytes : List Nat
deriving DecidableEq

/-- A vault file as used by `handleCommand`: its `name` and its `path`. -/
structure VaultFile where
  name : List Char
  path : List Char
deriving DecidableEq

/-- Observable events of one pipeline invocation. -/
inductive Ev where
  | notice (msg : String)
  | fetchFile (path : List Char)
  | fetchElem
  | clipWrite (t : String) (bytes : List Nat)
  | createURL
  | canvas (w h : Nat)
  | revokeURL
deriving DecidableEq

/-- Errors that can be thrown by an external operation.  An `Err` in the
second component of a result is an error that escaped the invocation
uncaught (an unhandled rejection). -/
inductive Err where
  | fetchFailed
  | jimpFailed
  | thrown (m : String)
deriving DecidableEq

/-- The `message` of a thrown error, as read by a `catch (e)` block. -/
def errMsg : Err → String
  | Err.fetchFailed => "Failed to fetch"
  | Err.jimpFailed => "Could not load image"
  | Err.thrown m => m

def naMsg : String := "Not an image file or not supported..."
def copyingMsg : String := "Copying the image..."
def copiedMsg : String := "Image copied to clipboard!"
def copyFailMsg : String := "Failed to copy..."
def svgLoadFailMsg : String := "Failed to load SVG image for conversion."
def svgErrMsg : String := "Error during SVG to PNG conversion."
def ctxFailMsg : String := "Could not create canvas context."
def svgConvFailMsg : String := "Failed to convert SVG to PNG."
def pngType : String := "image/png"
def svgType : String := "image/svg+xml"

/-- Environment: the outcome of every external operation an invocation may
perform.  Functions give the outcome per input; `Option` is `none` when the
operation fails (rejects). -/
structure Env where
  clipOk : Bool
  jimp : List Nat → Option (List Nat)
  fetchByPath : List Char → Option Blob
  elemBlob : Option Blob
  imgLoadOk : Bool
  imgW : Nat
  imgH : Nat
  ctxOk : Bool
  encodePng : Nat → Nat → Option (List Nat)
  scale : Nat
  focusErr : Option String
  hasTarget : Bool

/-- `copyPngToClipboard` (`main.ts` lines 203-215): writes a clipboard item
keyed by the blob's own declared type; its internal try/catch converts a
write failure into a notice, so no error escapes. -/
def copyPngToClipboard (b : Blob) (clipOk : Bool) : List Ev :=
  [Ev.clipWrite b.type b.bytes, Ev.notice (if clipOk then copiedMsg else copyFailMsg)]

/-- `copyNonPngToClipboard` (`main.ts` lines 267-272): object URL, Jimp
decode, re-encode to a PNG-typed blob.  A Jimp failure escapes uncaught
(there is no try/catch in this function). -/
def copyNonPngToClipboard (b : Blob) (env : Env) : List Ev × List Err :=
  match env.jimp b.bytes with
  | none => ([Ev.createURL], [Err.jimpFailed])
  | some png => (Ev.createURL :: copyPngToClipboard ⟨pngType, png⟩ env.clipOk, [])

/-- `copySvgToClipboard` (`main.ts` lines 217-265): object URL, image load,
canvas sized `(img.width || 300) * scale` by `(img.height || 300) * scale`,
2d context, `canvas.toBlob(..., 'image/png')`.  The whole body is inside a
try/catch (a load rejection lands in the catch and adds a notice), so no
error escapes.  `URL.revokeObjectURL` runs only inside the `toBlob`
callback. -/
def copySvgToClipboard (b : Blob) (env : Env) : List Ev × List Err :=
  if env.imgLoadOk then
    if env.ctxOk then
      match env.encodePng ((if env.imgW = 0 then 300 else env.imgW) * env.scale)
          ((if env.imgH = 0 then 300 else env.imgH) * env.scale) with
      | some png =>
        ((Ev.createURL ::
            Ev.canvas ((if env.imgW = 0 then 300 else env.imgW) * env.scale)
              ((if env.imgH = 0 then 300 else env.imgH) * env.scale) ::
            copyPngToClipboard ⟨pngType, png⟩ env.clipOk) ++ [Ev.revokeURL], [])
      | none =>
        ([Ev.createURL,
          Ev.canvas ((if env.imgW = 0 then 300 else env.imgW) * env.scale)
            ((if env.imgH = 0 then 300 else env.imgH) * env.scale),
          Ev.notice svgConvFailMsg, Ev.revokeURL], [])
    else
      ([Ev.createURL,
        Ev.canvas ((if env.imgW = 0 then 300 else env.imgW) * env.scale)
          ((if env.imgH = 0 then 300 else env.imgH) * env.scale),
        Ev.notice ctxFailMsg], [])
  else ([Ev.createURL, Ev.notice svgLoadFailMsg, Ev.notice svgErrMsg], [])

/-- `copyImageToClipboard` (`main.ts` lines 188-201): fetch the element's
source, dispatch on the blob's declared type (png passthrough / svg
rasterize / other re-encode).  A fetch rejection escapes uncaught. -/
def copyImageToClipboard (hasTarget : Bool) (env : Env) : List Ev × List Err :=
  if hasTarget then
    match env.elemBlob with
    | none => ([Ev.fetchElem], [Err.fetchFailed])
    | some b =>
      if b.type = pngType then
        (Ev.fetchElem :: copyPngToClipboard b env.clipOk, [])
      else if b.type = svgType then
        (Ev.fetchElem :: (copySvgToClipboard b env).1, (copySvgToClipboard b env).2)
      else
        (Ev.fetchElem :: (copyNonPngToClipboard b env).1, (copyNonPngToClipboard b env).2)
  else ([], [])

/-- The body of the per-file async callback of `handleCommand`
(`main.ts` lines 98-109), for a file whose name matched: notice, fetch,
then png passthrough or non-png re-encode.  A fetch or Jimp rejection
escapes uncaught (the callback's promise is discarded by `forEach`). -/
def processFile (env : Env) (f : VaultFile) : List Ev × List Err :=
  match env.fetchByPath f.path with
  | none => ([Ev.notice copyingMsg, Ev.fetchFile f.path], [Err.fetchFailed])
  | some b =>
    if b.type = pngType then
      (Ev.notice copyingMsg :: Ev.fetchFile f.path :: copyPngToClipboard b env.clipOk, [])
    else
      (Ev.notice copyingMsg :: Ev.fetchFile f.path :: (copyNonPngToClipboard b env).1,
        (copyNonPngToClipboard b env).2)

/-- Concatenation of the per-callback results of a `forEach`. -/
def concatRes : List (List Ev × List Err) → List Ev × List Err
  | [] => ([], [])
  | r :: rs => (r.1 ++ (concatRes rs).1, r.2 ++ (concatRes rs).2)

/-- `handleCommand` (`main.ts` lines 73-111): parse the cursor line, check
the extension allowlist, then run the per-file callback on every file whose
name equals the extracted name.  Every early exit shows the same notice. -/
def handleCommand (line : List Char) (files : List VaultFile) (env : Env) :
    List Ev × List Err :=
  if hasBang line = false then ([Ev.notice naMsg], [])
  else if extractName line = [] then ([Ev.notice naMsg], [])
  else if lastExt (stripAlias (extractName line)) = [] then ([Ev.notice naMsg], [])
  else if allowedExts.contains (lastExt (stripAlias (extractName line))) = false then
    ([Ev.notice naMsg], [])
  else
    concatRes (files.map (fun f =>
      if f.name = stripAlias (extractName line) then processFile env f else ([], [])))

/-- The body of `handleMenuOption` before its catch (`main.ts` lines
115-119): notice, focus acquisition (which may throw), then the element
pipeline with `targetImage || undefined` as target. -/
def menuBody (env : Env) : List Ev × List Err :=
  match env.focusErr with
  | some m => ([Ev.notice copyingMsg], [Err.thrown m])
  | none =>
    (Ev.notice copyingMsg :: (copyImageToClipboard env.hasTarget env).1,
      (copyImageToClipboard env.hasTarget env).2)

/-- A `try { ... } catch (e) { new Notice(e.message) }` wrapper: the first
escaping error becomes a notice and nothing escapes. -/
def tryCatchNotice (r : List Ev × List Err) : List Ev × List Err :=
  match r.2 with
  | [] => (r.1, [])
  | e :: _ => (r.1 ++ [Ev.notice (errMsg e)], [])

/-- `handleMenuOption` (`main.ts` lines 114-123): the body wrapped in
try/catch. -/
def handleMenuOption (env : Env) : List Ev × List Err :=
  tryCatchNotice (menuBody env)

/-- The `setTimeout` callback scheduled by `handleTouchStart`
(`main.ts` lines 129-134): if the recorded timestamp is nonzero, notice and
run the element pipeline.  No try/catch: errors escape uncaught. -/
def handleTouchCheck (touchTime : Nat) (env : Env) : List Ev × List Err :=
  if touchTime ≠ 0 then
    (Ev.notice copyingMsg :: (copyImageToClipboard true env).1,
      (copyImageToClipboard true env).2)
  else ([], [])

/-- Touch events as seen by `handleTouchStart` / `handleTouchMove`:
whether the event target is an image, and for a start the current time. -/
inductive TEv where
  | tstart (isImg : Bool) (now : Nat)
  | tmove (isImg : Bool)
deriving DecidableEq

/-- Is the event a touch-start over an image. -/
def isImgStart : TEv → Bool
  | TEv.tstart b _ => b
  | TEv.tmove _ => false

/-- The update of `touchTime` by one event (`main.ts` lines 125-141):
a start over an image records the time, a move over an image resets it to
zero, anything else leaves it unchanged. -/
def touchStep (t : Nat) : TEv → Nat
  | TEv.tstart isImg now => if isImg then now else t
  | TEv.tmove isImg => if isImg then 0 else t

/-- The value of `touchTime` after a sequence of touch events. -/
def runTouch (t : Nat) (evs : List TEv) : Nat :=
  evs.foldl touchStep t

/-! Lemmas about the regex model. -/

lemma splitFirstClose_append (n q : List Char) (h : hasClose (n ++ [']']) = false) :
    splitFirstClose (n ++ ']' :: ']' :: q) = some (n, q) := by
  induction n with
  | nil => simp [splitFirstClose]
  | cons c m ih =>
    cases m with
    | nil =>
      simp only [hasClose, List.cons_append, List.nil_append, Bool.or_eq_false_iff,
        Bool.and_eq_false_iff] at h
      have hc : (c == ']') = false := by
        rcases h.1 with hc | hc
        · exact hc
        · simp at hc
      simp [splitFirstClose, hc]
    | cons d m' =>
      simp only [hasClose, List.cons_append, Bool.or_eq_false_iff] at h
      have hrec := ih h.2
      simp only [List.cons_append] at hrec ⊢
      simp [splitFirstClose, h.1, hrec]

lemma lastGroup_of_hasBang_false (l : List Char) (h : hasBang l = false) :
    lastGroup l = none := by
  induction l with
  | nil => rfl
  | cons c rest ih =>
    simp only [hasBang, Bool.or_eq_false_iff] at h
    simp [lastGroup, ih h.2, embedAt, h.1]

lemma lastGroup_append (x l : List Char) (g : List Char) (h : lastGroup l = some g) :
    lastGroup (x ++ l) = some g := by
  induction x with
  | nil => simpa using h
  | cons c x' ih => simp [lastGroup, ih]

lemma lastGroup_cons (c : Char) (rest : List Char) :
    lastGroup (c :: rest) =
      match lastGroup rest with
      | some g => some g
      | none => embedAt (c :: rest) := rfl

lemma lastGroup_bangSeq (r g q : List Char) (hb : hasBang ('[' :: '[' :: r) = false)
    (hs : splitFirstClose r = some (g, q)) :
    lastGroup (bangSeq ++ r) = some g := by
  have h1 : lastGroup ('[' :: '[' :: r) = none := lastGroup_of_hasBang_false _ hb
  have h2 : bangSeq ++ r = '!' :: '[' :: '[' :: r := rfl
  rw [h2, lastGroup_cons, h1]
  simp [embedAt, startsBang, hs]

/-- The regex extraction on a line holding an embed whose group region is
well formed: the group is the embedded name. -/
lemma extractName_embed (p n q : List Char) (hclose : hasClose (n ++ [']']) = false)
    (hbang : hasBang ('[' :: '[' :: (n ++ ']' :: ']' :: q)) = false) :
    extractName (p ++ bangSeq ++ n ++ ']' :: ']' :: q) = n := by
  have hs : splitFirstClose (n ++ ']' :: ']' :: q) = some (n, q) :=
    splitFirstClose_append n q hclose
  have hl : lastGroup (bangSeq ++ (n ++ ']' :: ']' :: q)) = some n :=
    lastGroup_bangSeq _ _ _ hbang hs
  have := lastGroup_append p _ _ hl
  simp only [List.append_assoc] at this ⊢
  simp [extractName, this]

lemma hasBang_append_bangSeq (x r : List Char) : hasBang (x ++ bangSeq ++ r) = true := by
  induction x with
  | nil => simp [bangSeq, hasBang, startsBang]
  | cons c x' ih =>
    simp only [List.cons_append, hasBang, Bool.or_eq_true]
    exact Or.inr (by simpa using ih)

lemma stripAlias_eq_takeWhile (s : List Char) :
    stripAlias s = s.takeWhile (fun c => c != '|') := by
  unfold stripAlias
  split
  · rfl
  · rename_i h
    have h' : '|' ∉ s := by simpa using h
    refine (List.takeWhile_eq_self_iff.mpr ?_).symm
    intro c hc
    simp only [bne_iff_ne, ne_eq]
    exact fun e => h' (e ▸ hc)

/-! Lemmas locating clipboard-write events. -/

lemma clipWrite_copyPng {t : String} {bs : List Nat} {b : Blob} {ok : Bool}
    (h : Ev.clipWrite t bs ∈ copyPngToClipboard b ok) : t = b.type := by
  simp [copyPngToClipboard] at h
  exact h.1

lemma clipWrite_nonPng {t : String} {bs : List Nat} {b : Blob} {env : Env}
    (h : Ev.clipWrite t bs ∈ (copyNonPngToClipboard b env).1) : t = pngType := by
  unfold copyNonPngToClipboard at h
  cases hj : env.jimp b.bytes with
  | none => rw [hj] at h; simp at h
  | some png =>
    rw [hj] at h
    simp [copyPngToClipboard] at h
    exact h.1

lemma clipWrite_svg {t : String} {bs : List Nat} {b : Blob} {env : Env}
    (h : Ev.clipWrite t bs ∈ (copySvgToClipboard b env).1) : t = pngType := by
  unfold copySvgToClipboard at h
  split at h
  · split at h
    · split at h
      · simp [copyPngToClipboard] at h
        exact h.1
      · simp at h
    · simp at h
  · simp at h

lemma clipWrite_copyImage {t : String} {bs : List Nat} {ht : Bool} {env : Env}
    (h : Ev.clipWrite t bs ∈ (copyImageToClipboard ht env).1) : t = pngType := by
  unfold copyImageToClipboard at h
  split at h
  · split at h
    · simp at h
    · rename_i b
      split at h
      · rename_i hpng
        simp [copyPngToClipboard] at h
        exact h.1.trans hpng
      · split at h
        · simp only [List.mem_cons] at h
          rcases h with h | h
          · exact absurd h (by simp)
          · exact clipWrite_svg h
        · simp only [List.mem_cons] at h
          rcases h with h | h
          · exact absurd h (by simp)
          · exact clipWrite_nonPng h
  · simp at h

lemma clipWrite_processFile {t : String} {bs : List Nat} {env : Env} {f : VaultFile}
    (h : Ev.clipWrite t bs ∈ (processFile env f).1) : t = pngType := by
  unfold processFile at h
  split at h
  · simp at h
  · rename_i b hb
    split at h
    · rename_i hpng
      simp [copyPngToClipboard] at h
      exact h.1.trans hpng
    · simp only [List.mem_cons] at h
      rcases h with h | h
      · exact absurd h (by simp)
      · rcases h with h | h
        · exact absurd h (by simp)
        · exact clipWrite_nonPng h

lemma mem_concatRes {ev : Ev} {rs : List (List Ev × List Err)}
    (h : ev ∈ (concatRes rs).1) : ∃ r ∈ rs, ev ∈ r.1 := by
  induction rs with
  | nil => simp [concatRes] at h
  | cons r rs ih =>
    simp only [concatRes, List.mem_append] at h
    rcases h with h | h
    · exact ⟨r, List.mem_cons_self _ _, h⟩
    · rcases ih h with ⟨r', hr', hev⟩
      exact ⟨r', List.mem_cons_of_mem _ hr', hev⟩

lemma clipWrite_handleCommand {t : String} {bs : List Nat} {line : List Char}
    {files : List VaultFile} {env : Env}
    (h : Ev.clipWrite t bs ∈ (handleCommand line files env).1) : t = pngType := by
  unfold handleCommand at h
  split_ifs at h
  · simp at h
  · simp at h
  · simp at h
  · simp at h
  · obtain ⟨r, hr, hev⟩ := mem_concatRes h
    simp only [List.mem_map] at hr
    obtain ⟨f, _, rfl⟩ := hr
    by_cases hn : f.name = stripAlias (extractName line)
    · rw [if_pos hn] at hev
      exact clipWrite_processFile hev
    · rw [if_neg hn] at hev
      simp at hev

lemma clipWrite_menuBody {t : String} {bs : List Nat} {env : Env}
    (h : Ev.clipWrite t bs ∈ (menuBody env).1) : t = pngType := by
  unfold menuBody at h
  split at h
  · simp at h
  · simp only [List.mem_cons] at h
    rcases h with h | h
    · exact absurd h (by simp)
    · exact clipWrite_copyImage h

lemma clipWrite_menu {t : String} {bs : List Nat} {env : Env}
    (h : Ev.clipWrite t bs ∈ (handleMenuOption env).1) : t = pngType := by
  unfold handleMenuOption tryCatchNotice at h
  split at h
  · exact clipWrite_menuBody h
  · simp only [List.mem_append] at h
    rcases h with h | h
    · exact clipWrite_menuBody h
    · simp at h

lemma clipWrite_touch {t : String} {bs : List Nat} {tt : Nat} {env : Env}
    (h : Ev.clipWrite t bs ∈ (handleTouchCheck tt env).1) : t = pngType := by
  unfold handleTouchCheck at h
  split at h
  · simp only [List.mem_cons] at h
    rcases h with h | h
    · exact absurd h (by simp)
    · exact clipWrite_copyImage h
  · simp at h

/-! Lemmas for the command path and the touch state machine. -/

lemma concatRes_all_nil (rs : List (List Ev × List Err))
    (h : ∀ r ∈ rs, r = (([], []) : List Ev × List Err)) : concatRes rs = ([], []) := by
  induction rs with
  | nil => rfl
  | cons r rs ih =>
    have h1 := h r (List.mem_cons_self _ _)
    have h2 := ih (fun r' hr' => h r' (List.mem_cons_of_mem _ hr'))
    simp [concatRes, h1, h2]

lemma runTouch_stays_zero (evs : List TEv) (h : ∀ e ∈ evs, isImgStart e = false) :
    runTouch 0 evs = 0 := by
  induction evs with
  | nil => rfl
  | cons e rest ih =>
    have h0 : touchStep 0 e = 0 := by
      cases e with
      | tstart b n =>
        have hb := h _ (List.mem_cons_self _ _)
        simp only [isImgStart] at hb
        simp [touchStep, hb]
      | tmove b => cases b <;> simp [touchStep]
    show List.foldl touchStep (touchStep 0 e) rest = 0
    rw [h0]
    exact ih (fun e' he' => h e' (List.mem_cons_of_mem _ he'))

lemma runTouch_zero (evs : List TEv) (hmove : TEv.tmove true ∈ evs)
    (h : ∀ e ∈ evs, isImgStart e = false) : ∀ t, runTouch t evs = 0 := by
  induction evs with
  | nil => simp at hmove
  | cons e rest ih =>
    intro t
    by_cases he : e = TEv.tmove true
    · subst he
      show List.foldl touchStep (touchStep t (TEv.tmove true)) rest = 0
      have h0 : touchStep t (TEv.tmove true) = 0 := by simp [touchStep]
      rw [h0]
      exact runTouch_stays_zero rest (fun e' he' => h e' (List.mem_cons_of_mem _ he'))
    · have hmove' : TEv.tmove true ∈ rest := by
        rcases List.mem_cons.mp hmove with h1 | h1
        · exact absurd h1.symm he
        · exact h1
      exact ih hmove' (fun e' he' => h e' (List.mem_cons_of_mem _ he')) _

/-! Concrete environments and inputs used by witnesses and counterexamples. -/

/-- A blob declared as PNG. -/
def pngBlob : Blob := ⟨pngType, [1, 2]⟩

/-- A blob declared as SVG. -/
def svgBlob : Blob := ⟨svgType, [3, 4]⟩

/-- An environment where everything succeeds and the element blob is a PNG;
the image has no intrinsic size and the scale factor is 4. -/
def envPng : Env :=
  ⟨true, fun _ => none, fun _ => none, some pngBlob, true, 0, 0, true,
    fun _ _ => some [9], 4, none, true⟩

/-- An environment where everything succeeds, the element blob is an SVG
with intrinsic size 100 by 50, and the scale factor is 4. -/
def envSvgOk : Env :=
  ⟨true, fun _ => none, fun _ => none, some svgBlob, true, 100, 50, true,
    fun _ _ => some [9], 4, none, true⟩

/-- An environment where every fetch rejects. -/
def envBadFetch : Env :=
  ⟨true, fun _ => none, fun _ => none, none, true, 0, 0, true,
    fun _ _ => none, 4, none, true⟩

/-- An environment where the SVG image fails to load. -/
def envLoadFail : Env :=
  ⟨true, fun _ => none, fun _ => none, some svgBlob, false, 100, 100, true,
    fun _ _ => some [9], 4, none, true⟩

/-- The spec's end-to-end example line. -/
def c4Line : List Char := "Some text ![[diagram.svg|50]] more text".toList

/-- An existing vault file `diagram.svg`. -/
def svgFile : VaultFile := ⟨"diagram.svg".toList, "diagram.svg".toList⟩

/-- A vault file `a.png`. -/
def fileA : VaultFile := ⟨"a.png".toList, "a.png".toList⟩

/-- A vault file `b.png`. -/
def fileB : VaultFile := ⟨"b.png".toList, "b.png".toList⟩

/-- A command line embedding `a.png`. -/
def pngLine : List Char := "![[a.png]]".toList

/-! Claim theorems. -/

/-- C1: on every pipeline invocation (command path, context-menu path, and
touch path) every clipboard-write event carries a blob whose declared
content type is `image/png`; non-PNG inputs are re-encoded before the
clipboard writer runs, and it never receives any other declared type. -/
theorem c1_clipboard_always_png (line : List Char) (files : List VaultFile)
    (env : Env) (tt : Nat) (t : String) (bs : List Nat) :
    (Ev.clipWrite t bs ∈ (handleCommand line files env).1 → t = pngType) ∧
    (Ev.clipWrite t bs ∈ (handleMenuOption env).1 → t = pngType) ∧
    (Ev.clipWrite t bs ∈ (handleTouchCheck tt env).1 → t = pngType) :=
  ⟨clipWrite_handleCommand, clipWrite_menu, clipWrite_touch⟩

/-- Witness for C1 at a concrete touch invocation that writes. -/
theorem c1_clipboard_always_png_witness :
    Ev.clipWrite pngType [1, 2] ∈ (handleTouchCheck 5 envPng).1 ∧ pngType = pngType :=
  ⟨by decide, (c1_clipboard_always_png [] [] envPng 5 pngType [1, 2]).2.2 (by decide)⟩

/-- C2: an input blob declared `image/png` is passed through unchanged:
the clipboard-write event carries exactly the fetched blob's byte buffer,
with no re-encoding step, on both the element path and the command path. -/
theorem c2_png_identity (env : Env) (b : Blob) (hb : env.elemBlob = some b)
    (ht : b.type = pngType) :
    copyImageToClipboard true env =
      ([Ev.fetchElem, Ev.clipWrite b.type b.bytes,
        Ev.notice (if env.clipOk then copiedMsg else copyFailMsg)], []) ∧
    ∀ f : VaultFile, env.fetchByPath f.path = some b →
      processFile env f =
        ([Ev.notice copyingMsg, Ev.fetchFile f.path, Ev.clipWrite b.type b.bytes,
          Ev.notice (if env.clipOk then copiedMsg else copyFailMsg)], []) := by
  constructor
  · simp [copyImageToClipboard, hb, ht, copyPngToClipboard]
  · intro f hf
    simp [processFile, hf, ht, copyPngToClipboard]

/-- Witness for C2 at a concrete PNG blob. -/
theorem c2_png_identity_witness :
    envPng.elemBlob = some pngBlob ∧
    copyImageToClipboard true envPng =
      ([Ev.fetchElem, Ev.clipWrite pngBlob.type pngBlob.bytes,
        Ev.notice (if envPng.clipOk then copiedMsg else copyFailMsg)], []) :=
  ⟨rfl, (c2_png_identity envPng pngBlob rfl rfl).1⟩

/-- C3: the rasterization canvas is `w * scale` by `h * scale` for intrinsic
dimensions `w`, `h`, with 300 substituted for a zero dimension before
scaling; in particular no intrinsic size at scale 4 gives 1200 by 1200. -/
theorem c3_canvas_dimensions (b : Blob) (env : Env) (hload : env.imgLoadOk = true) :
    (env.imgW ≠ 0 → env.imgH ≠ 0 →
      Ev.canvas (env.imgW * env.scale) (env.imgH * env.scale) ∈
        (copySvgToClipboard b env).1) ∧
    (env.imgW = 0 → env.imgH = 0 → env.scale = 4 →
      Ev.canvas 1200 1200 ∈ (copySvgToClipboard b env).1) := by
  constructor
  · intro hw hh
    cases hctx : env.ctxOk with
    | true =>
      cases henc : env.encodePng (env.imgW * env.scale) (env.imgH * env.scale) with
      | none => simp [copySvgToClipboard, hload, hctx, henc, hw, hh]
      | some png => simp [copySvgToClipboard, hload, hctx, henc, hw, hh]
    | false => simp [copySvgToClipboard, hload, hctx, hw, hh]
  · intro hw hh hs
    cases hctx : env.ctxOk with
    | true =>
      cases henc : env.encodePng 1200 1200 with
      | none => simp [copySvgToClipboard, hload, hctx, henc, hw, hh, hs]
      | some png => simp [copySvgToClipboard, hload, hctx, henc, hw, hh, hs]
    | false => simp [copySvgToClipboard, hload, hctx, hw, hh, hs]

/-- Witness for C3: intrinsic 100 by 50 at scale 4, and no intrinsic size
at scale 4. -/
theorem c3_canvas_dimensions_witness :
    Ev.canvas (envSvgOk.imgW * envSvgOk.scale) (envSvgOk.imgH * envSvgOk.scale) ∈
      (copySvgToClipboard svgBlob envSvgOk).1 ∧
    Ev.canvas 1200 1200 ∈ (copySvgToClipboard svgBlob envPng).1 :=
  ⟨(c3_canvas_dimensions svgBlob envSvgOk rfl).1 (by decide) (by decide),
    (c3_canvas_dimensions svgBlob envPng rfl).2 rfl rfl rfl⟩

/-- C4: a command-path line whose extracted file name has an extension
outside {bmp, gif, jpeg, jpg, png, tiff} yields only the NotAnImage notice,
with nothing fetched or copied, while the direct-element path dispatches an
`image/svg+xml` blob to the rasterizer. -/
theorem c4_ext_allowlist :
    (∀ (line : List Char) (files : List VaultFile) (env : Env),
      allowedExts.contains (lastExt (stripAlias (extractName line))) = false →
      handleCommand line files env = ([Ev.notice naMsg], [])) ∧
    (∀ (env : Env) (b : Blob), env.elemBlob = some b → b.type = svgType →
      copyImageToClipboard true env =
        (Ev.fetchElem :: (copySvgToClipboard b env).1, (copySvgToClipboard b env).2)) := by
  constructor
  · intro line files env hna
    unfold handleCommand
    by_cases h1 : hasBang line = false
    · rw [if_pos h1]
    · rw [if_neg h1]
      by_cases h2 : extractName line = []
      · rw [if_pos h2]
      · rw [if_neg h2]
        by_cases h3 : lastExt (stripAlias (extractName line)) = []
        · rw [if_pos h3]
        · rw [if_neg h3, if_pos hna]
  · intro env b hb ht
    simp [copyImageToClipboard, hb, ht, pngType, svgType]

/-- Witness for C4 at the spec's example line with the file existing. -/
theorem c4_ext_allowlist_witness :
    handleCommand c4Line [svgFile] envSvgOk = ([Ev.notice naMsg], []) ∧
    copyImageToClipboard true envSvgOk =
      (Ev.fetchElem :: (copySvgToClipboard svgBlob envSvgOk).1,
        (copySvgToClipboard svgBlob envSvgOk).2) :=
  ⟨c4_ext_allowlist.1 c4Line [svgFile] envSvgOk (by decide),
    c4_ext_allowlist.2 envSvgOk svgBlob rfl rfl⟩

/-- C5: on a line with a single embed pattern the resolver extracts exactly
the text between the opener and the first closer, with everything from the
first vertical bar onward removed. -/
theorem c5_extract_name (p n q : List Char)
    (hclose : hasClose (n ++ [']']) = false)
    (hbang : hasBang ('[' :: '[' :: (n ++ ']' :: ']' :: q)) = false) :
    extractName (p ++ bangSeq ++ n ++ ']' :: ']' :: q) = n ∧
    stripAlias (extractName (p ++ bangSeq ++ n ++ ']' :: ']' :: q)) =
      n.takeWhile (fun c => c != '|') := by
  have he := extractName_embed p n q hclose hbang
  exact ⟨he, by rw [he, stripAlias_eq_takeWhile]⟩

/-- Witness for C5 on a concrete aliased embed. -/
theorem c5_extract_name_witness :
    extractName (("Some ".toList) ++ bangSeq ++ ("pic.png|50".toList) ++
        ']' :: ']' :: (" end".toList)) = "pic.png|50".toList ∧
    stripAlias (extractName (("Some ".toList) ++ bangSeq ++ ("pic.png|50".toList) ++
        ']' :: ']' :: (" end".toList))) =
      ("pic.png|50".toList).takeWhile (fun c => c != '|') :=
  c5_extract_name ("Some ".toList) ("pic.png|50".toList) (" end".toList)
    (by decide) (by decide)

/-- C6 counterexample: a touch invocation with a rejecting fetch lets the
error escape uncaught (a nonempty escaped-error list), refuting the claim
that every invocation converts every pipeline error to a notice. -/
theorem c6_uncaught_counterexample :
    (handleTouchCheck 5 envBadFetch).2 = [Err.fetchFailed] := by decide

/-- C6 amended: the context-menu invocation catches every pipeline error
and converts it to a notice, but the command path and the touch path let
fetch (and decode) errors escape uncaught. -/
theorem c6_error_propagation :
    (∀ env : Env, (handleMenuOption env).2 = []) ∧
    (handleTouchCheck 5 envBadFetch).2 = [Err.fetchFailed] ∧
    (handleCommand pngLine [fileA] envBadFetch).2 = [Err.fetchFailed] := by
  refine ⟨?_, by decide, by decide⟩
  intro env
  unfold handleMenuOption tryCatchNotice
  split <;> rfl

/-- C7 counterexample: a line that passes the extension check but matches no
vault file completes with no events at all; in particular no NotAnImage
notice is shown, refuting the claim. -/
theorem c7_silent_counterexample :
    handleCommand pngLine [fileB] envBadFetch = ([], []) ∧
    Ev.notice naMsg ∉ (handleCommand pngLine [fileB] envBadFetch).1 := by
  constructor
  · decide
  · decide

/-- C7 amended: when the extracted name passes the extension check but no
file in the index has that exact name, the invocation completes silently:
no notice, nothing fetched, nothing copied. -/
theorem c7_no_match_silent (line : List Char) (files : List VaultFile) (env : Env)
    (h1 : hasBang line = true)
    (h2 : extractName line ≠ [])
    (h3 : allowedExts.contains (lastExt (stripAlias (extractName line))) = true)
    (h4 : ∀ f ∈ files, f.name ≠ stripAlias (extractName line)) :
    handleCommand line files env = ([], []) := by
  have hext : lastExt (stripAlias (extractName line)) ≠ [] := by
    intro he
    rw [he] at h3
    exact absurd h3 (by decide)
  unfold handleCommand
  rw [if_neg (by simp [h1]), if_neg h2, if_neg hext,
    if_neg (fun hcf => by rw [h3] at hcf; exact Bool.noConfusion hcf)]
  apply concatRes_all_nil
  intro r hr
  simp only [List.mem_map] at hr
  obtain ⟨f, hf, rfl⟩ := hr
  exact if_neg (h4 f hf)

/-- Witness for the amended C7 at a concrete non-matching file list. -/
theorem c7_no_match_silent_witness :
    handleCommand pngLine [fileB] envSvgOk = ([], []) :=
  c7_no_match_silent pngLine [fileB] envSvgOk (by decide) (by decide) (by decide)
    (by decide)

/-- C8 counterexample: when the SVG image fails to load, the object URL is
created but never revoked, refuting the claim that every failure path
revokes it. -/
theorem c8_leak_counterexample :
    Ev.createURL ∈ (copySvgToClipboard svgBlob envLoadFail).1 ∧
    Ev.revokeURL ∉ (copySvgToClipboard svgBlob envLoadFail).1 :=
  ⟨by decide, by decide⟩

/-- C8 amended: the object URL is revoked on the success path and on the
PNG-encoding-failure path (both run the toBlob callback), but not on image
load failure and not on a missing canvas context, where the function exits
before the callback. -/
theorem c8_revoke_paths (b : Blob) (env : Env) :
    (env.imgLoadOk = true → env.ctxOk = true →
      Ev.revokeURL ∈ (copySvgToClipboard b env).1) ∧
    (env.imgLoadOk = false → Ev.revokeURL ∉ (copySvgToClipboard b env).1) ∧
    (env.imgLoadOk = true → env.ctxOk = false →
      Ev.revokeURL ∉ (copySvgToClipboard b env).1) := by
  refine ⟨?_, ?_, ?_⟩
  · intro hl hc
    unfold copySvgToClipboard
    rw [hl, hc]
    simp only [if_true]
    split <;> simp
  · intro hl
    simp [copySvgToClipboard, hl]
  · intro hl hc
    simp [copySvgToClipboard, hl, hc]

/-- Witness for the amended C8 on both a revoking and a leaking run. -/
theorem c8_revoke_paths_witness :
    Ev.revokeURL ∈ (copySvgToClipboard svgBlob envSvgOk).1 ∧
    Ev.revokeURL ∉ (copySvgToClipboard svgBlob envLoadFail).1 :=
  ⟨(c8_revoke_paths svgBlob envSvgOk).1 rfl rfl,
    (c8_revoke_paths svgBlob envLoadFail).2.1 rfl⟩

/-- C9: after a touch-start over an image, if a touch-move over an image
occurs before the scheduled check and no further image touch-start occurs in
between, the check observes a zero timestamp and the copy pipeline does
not run. -/
theorem c9_touch_move_suppresses (t0 now : Nat) (evs : List TEv) (env : Env)
    (hmove : TEv.tmove true ∈ evs)
    (hstart : ∀ e ∈ evs, isImgStart e = false) :
    runTouch t0 (TEv.tstart true now :: evs) = 0 ∧
    handleTouchCheck (runTouch t0 (TEv.tstart true now :: evs)) env = ([], []) := by
  have h1 : runTouch t0 (TEv.tstart true now :: evs) = runTouch now evs := by
    show List.foldl touchStep (touchStep t0 (TEv.tstart true now)) evs = _
    simp [touchStep, runTouch]
  have h2 : runTouch t0 (TEv.tstart true now :: evs) = 0 := by
    rw [h1]
    exact runTouch_zero evs hmove hstart now
  refine ⟨h2, ?_⟩
  rw [h2]
  rfl

/-- Witness for C9 on a concrete start-then-move trace. -/
theorem c9_touch_move_suppresses_witness :
    runTouch 0 (TEv.tstart true 5 :: [TEv.tmove true]) = 0 ∧
    handleTouchCheck (runTouch 0 (TEv.tstart true 5 :: [TEv.tmove true])) envPng =
      ([], []) :=
  c9_touch_move_suppresses 0 5 [TEv.tmove true] envPng (by decide) (by decide)

/-- C10: with more than one embed on the line, the greedy leading part of
the extraction regex selects the last embed, not the first. -/
theorem c10_last_embed_wins (p n1 mid n2 q : List Char)
    (hclose : hasClose (n2 ++ [']']) = false)
    (hbang : hasBang ('[' :: '[' :: (n2 ++ ']' :: ']' :: q)) = false) :
    extractName (p ++ bangSeq ++ n1 ++ ']' :: ']' ::
      (mid ++ bangSeq ++ n2 ++ ']' :: ']' :: q)) = n2 ∧
    (n1 ≠ n2 → extractName (p ++ bangSeq ++ n1 ++ ']' :: ']' ::
      (mid ++ bangSeq ++ n2 ++ ']' :: ']' :: q)) ≠ n1) := by
  have h := extractName_embed (p ++ bangSeq ++ n1 ++ ']' :: ']' :: mid) n2 q hclose hbang
  have hline : p ++ bangSeq ++ n1 ++ ']' :: ']' ::
      (mid ++ bangSeq ++ n2 ++ ']' :: ']' :: q) =
      (p ++ bangSeq ++ n1 ++ ']' :: ']' :: mid) ++ bangSeq ++ n2 ++ ']' :: ']' :: q := by
    simp [List.append_assoc]
  constructor
  · rw [hline]
    exact h
  · intro hne
    rw [hline, h]
    exact Ne.symm hne

/-- Witness for C10 on a concrete two-embed line. -/
theorem c10_last_embed_wins_witness :
    extractName (("x".toList) ++ bangSeq ++ ("a.png".toList) ++ ']' :: ']' ::
      ((" ".toList) ++ bangSeq ++ ("b.png".toList) ++ ']' :: ']' :: ("".toList))) =
      "b.png".toList :=
  (c10_last_embed_wins ("x".toList) ("a.png".toList) (" ".toList) ("b.png".toList)
    ("".toList) (by decide) (by decide)).1

end CopyImage
